import Mathlib

/-!
Verification of the OCR image-to-text pipeline of the text_recognition_app
backend: a shallow embedding in Lean 4 of the validator (`validateImageFile`),
the image optimizer (`optimizeImage`), the recognition-engine wrapper
(`getOcrWorker` / `terminateOcrWorker`), the single-image orchestrator
(`processImageWithOcr`), the batch orchestrator (`processBatch`), and the
result-store operations (`saveOcrResult`, `deleteOcrResult`).

External effectful collaborators (the sharp image library, the tesseract
engine, object storage, the MySQL store) are modelled as explicit environment
parameters describing the outcome of each effectful call; the orchestration
logic itself is translated line by line from the TypeScript source.
-/

/-- Image bytes (a Node `Buffer`) are modelled as a list of bytes. -/
abbrev Bytes := List UInt8

/-- Return type of `validateImageFile` in `server/ocr.ts`:
`{ valid: boolean; error?: string }`. -/
structure ValidationResult where
  valid : Bool
  error : Option String
deriving DecidableEq, Repr

/-- The fixed MIME allow-list from `validateImageFile`
(`server/ocr.ts`, line 131). -/
def allowedMimeTypes : List String :=
  ["image/jpeg", "image/png", "image/webp", "image/tiff"]

/-- The default `maxSizeBytes` of `validateImageFile`: `10 * 1024 * 1024`. -/
def defaultMaxSizeBytes : Nat := 10 * 1024 * 1024

/-- The over-size error message built at `server/ocr.ts` line 126:
`File size exceeds maximum of ${maxSizeBytes / 1024 / 1024}MB`.
JavaScript divides in floating point; the embedding uses natural division,
which agrees with the source whenever `maxSizeBytes` is a whole number of
megabytes (the default `10 * 1024 * 1024` renders as `10`). -/
def sizeErrorMessage (maxSizeBytes : Nat) : String :=
  "File size exceeds maximum of " ++ toString (maxSizeBytes / 1024 / 1024) ++ "MB"

/-- The unsupported-format error message built at `server/ocr.ts` line 135. -/
def formatErrorMessage : String :=
  "Unsupported image format. Allowed: " ++ String.intercalate ", " allowedMimeTypes

/-- Shallow embedding of `validateImageFile(buffer, mimeType, maxSizeBytes)`
(`server/ocr.ts`, lines 117-140): the size check runs first, then the
MIME-type allow-list check; otherwise the result is valid with no error. -/
def validateImageFile (buffer : Bytes) (mimeType : String)
    (maxSizeBytes : Nat) : ValidationResult :=
  if buffer.length > maxSizeBytes then
    { valid := false, error := some (sizeErrorMessage maxSizeBytes) }
  else if !(allowedMimeTypes.contains mimeType) then
    { valid := false, error := some formatErrorMessage }
  else
    { valid := true, error := none }

/-- C3: `validateImageFile` returns `valid=false` with the size limit in MB in
the error message whenever the byte length exceeds `maxSizeBytes`; it returns
`valid=false` for every MIME type outside the allow-list regardless of size;
and it returns `valid=true` with no error whenever the length is at most the
limit and the MIME type is allowed. (It is a pure Lean function of its
arguments, matching the side-effect-free source.) -/
theorem validateImageFile_spec (buffer : Bytes) (mimeType : String)
    (maxSizeBytes : Nat) :
    (buffer.length > maxSizeBytes →
      validateImageFile buffer mimeType maxSizeBytes =
        { valid := false
          error := some ("File size exceeds maximum of " ++
            toString (maxSizeBytes / 1024 / 1024) ++ "MB") }) ∧
    (allowedMimeTypes.contains mimeType = false →
      (validateImageFile buffer mimeType maxSizeBytes).valid = false) ∧
    (buffer.length ≤ maxSizeBytes → allowedMimeTypes.contains mimeType = true →
      validateImageFile buffer mimeType maxSizeBytes =
        { valid := true, error := none }) := by
  refine ⟨fun hgt => ?_, fun hmime => ?_, fun hle hmime => ?_⟩
  · simp [validateImageFile, sizeErrorMessage, hgt]
  · by_cases hsz : buffer.length > maxSizeBytes
    · simp [validateImageFile, hsz]
    · simp at hmime
      simp [validateImageFile, hsz, hmime]
  · simp at hmime
    simp [validateImageFile, Nat.not_lt.mpr hle, hmime]

/-- C3 witness: a 3-byte JPEG under the default 10MB limit validates; a
2-byte buffer over a 1-byte limit is rejected with the limit in the message;
a PDF is rejected regardless of size; and the default limit renders as 10MB. -/
theorem validateImageFile_spec_witness :
    (validateImageFile [(0 : UInt8), 0, 0] "image/jpeg"
        defaultMaxSizeBytes = { valid := true, error := none }) ∧
    (validateImageFile [(0 : UInt8), 0] "image/jpeg" 1 =
      { valid := false
        error := some ("File size exceeds maximum of " ++
          toString (1 / 1024 / 1024) ++ "MB") }) ∧
    ((validateImageFile [(0 : UInt8), 0, 0] "application/pdf"
        defaultMaxSizeBytes).valid = false) ∧
    sizeErrorMessage defaultMaxSizeBytes = "File size exceeds maximum of 10MB" := by
  refine ⟨?_, ?_, ?_, ?_⟩
  · exact (validateImageFile_spec _ _ _).2.2 (by norm_num [defaultMaxSizeBytes]) (by decide)
  · exact (validateImageFile_spec [(0 : UInt8), 0] "image/jpeg" 1).1 (by norm_num)
  · exact (validateImageFile_spec _ _ _).2.1 (by decide)
  · rfl

/-- The subset of sharp image metadata read by `optimizeImage`
(`server/ocr.ts`, line 92): `width` may be absent for corrupt images. -/
structure ImgMetadata where
  width : Option Nat
deriving DecidableEq, Repr

/-- A sharp pipeline operation queued by `optimizeImage`. -/
inductive ImgOp
  /-- `pipeline.resize(w, h, { fit, withoutEnlargement })`. -/
  | resize (w h : Nat) (fitInside withoutEnlargement : Bool)
  /-- `pipeline.grayscale()`. -/
  | grayscale
deriving DecidableEq, Repr

/-- Environment describing the behaviour of the external sharp library on the
current input buffer: reading metadata may fail, and rendering the queued
pipeline operations (`toBuffer`) may fail or produce output bytes. -/
structure SharpEnv where
  metadata : Except String ImgMetadata
  render : List ImgOp → Except String Bytes

/-- The JavaScript truthiness test `metadata.width && metadata.width > 4000`
of `server/ocr.ts` line 97: false when `width` is absent (or 0, which also
fails the comparison). -/
def widthExceeds4000 (md : ImgMetadata) : Bool :=
  match md.width with
  | some w => w > 4000
  | none => false

/-- The pipeline operations queued by `optimizeImage` for metadata `md`
(`server/ocr.ts`, lines 95-105): a resize to fit within 4000x4000 without
enlargement exactly when `metadata.width && metadata.width > 4000` is truthy,
always followed by grayscale conversion. -/
def optimizeOps (md : ImgMetadata) : List ImgOp :=
  (if widthExceeds4000 md then
    [ImgOp.resize 4000 4000 true true]
  else []) ++ [ImgOp.grayscale]

/-- Shallow embedding of `optimizeImage(imageBuffer)` (`server/ocr.ts`,
lines 90-112): on any sharp failure (metadata read or rendering) the original
buffer is returned unchanged; otherwise the rendered pipeline output. -/
def optimizeImage (env : SharpEnv) (imageBuffer : Bytes) : Bytes :=
  match env.metadata with
  | .error _ => imageBuffer
  | .ok md =>
    match env.render (optimizeOps md) with
    | .ok out => out
    | .error _ => imageBuffer

/-- C6: `optimizeImage` never raises: for every environment and input it
either returns the rendering of a pipeline that always ends in grayscale and
contains a resize (to fit within 4000x4000, without enlargement) exactly when
the metadata width exceeds 4000, or, on any internal failure, returns the
original input bytes unchanged. -/
theorem optimizeImage_bestEffort (env : SharpEnv) (imageBuffer : Bytes) :
    (∃ md, env.metadata = .ok md ∧
      env.render (optimizeOps md) = .ok (optimizeImage env imageBuffer) ∧
      ImgOp.grayscale ∈ optimizeOps md ∧
      (ImgOp.resize 4000 4000 true true ∈ optimizeOps md ↔
        md.width.getD 0 > 4000) ∧
      (∀ w h fi we, ImgOp.resize w h fi we ∈ optimizeOps md →
        w = 4000 ∧ h = 4000 ∧ fi = true ∧ we = true)) ∨
    optimizeImage env imageBuffer = imageBuffer := by
  rcases hmd : env.metadata with e | md
  · right; simp [optimizeImage, hmd]
  · rcases hr : env.render (optimizeOps md) with e | out
    · right; simp [optimizeImage, hmd, hr]
    · left
      refine ⟨md, rfl, ?_, ?_, ?_, ?_⟩
      · simp [optimizeImage, hmd, hr]
      · simp [optimizeOps]
      · rcases md with ⟨_ | w⟩
        · simp [optimizeOps, widthExceeds4000]
        · by_cases hw : w > 4000 <;>
            simp [optimizeOps, widthExceeds4000, hw]
      · intro w h fi we hmem
        rcases md with ⟨_ | w0⟩
        · simp [optimizeOps, widthExceeds4000] at hmem
        · by_cases hw : w0 > 4000 <;>
            simp [optimizeOps, widthExceeds4000, hw] at hmem
          exact ⟨hmem.1, hmem.2.1, hmem.2.2.1, hmem.2.2.2⟩

/-- C6 witness: on a concrete environment whose metadata reports width 5000
and whose rendering succeeds, `optimizeImage` returns the rendered bytes of a
resize-then-grayscale pipeline; the theorem instance is evaluated there. -/
theorem optimizeImage_bestEffort_witness :
    (∃ md,
      (SharpEnv.mk (.ok ⟨some 5000⟩)
          (fun ops => if ops = optimizeOps ⟨some 5000⟩ then .ok [(7 : UInt8)]
            else .error "bad")).metadata = .ok md ∧
      (SharpEnv.mk (.ok ⟨some 5000⟩)
          (fun ops => if ops = optimizeOps ⟨some 5000⟩ then .ok [(7 : UInt8)]
            else .error "bad")).render (optimizeOps md) =
        .ok (optimizeImage
          (SharpEnv.mk (.ok ⟨some 5000⟩)
            (fun ops => if ops = optimizeOps ⟨some 5000⟩ then .ok [(7 : UInt8)]
              else .error "bad")) [(1 : UInt8)]) ∧
      ImgOp.grayscale ∈ optimizeOps md ∧
      (ImgOp.resize 4000 4000 true true ∈ optimizeOps md ↔
        md.width.getD 0 > 4000) ∧
      (∀ w h fi we, ImgOp.resize w h fi we ∈ optimizeOps md →
        w = 4000 ∧ h = 4000 ∧ fi = true ∧ we = true)) ∨
    optimizeImage
        (SharpEnv.mk (.ok ⟨some 5000⟩)
          (fun ops => if ops = optimizeOps ⟨some 5000⟩ then .ok [(7 : UInt8)]
            else .error "bad")) [(1 : UInt8)] = [(1 : UInt8)] :=
  optimizeImage_bestEffort _ _

/-- Shallow embedding of the module-level `ocrWorker` variable and
`getOcrWorker()` (`server/ocr.ts`, lines 8-23) for sequential (non-overlapping)
calls. The state is the current `ocrWorker` reference (worker instances are
identified by numbers); `createWorker` is the outcome the tesseract library
would produce if invoked. The result is the returned (or thrown) value, the
new state, and whether `createWorker` was actually invoked. On construction
failure the caught error is replaced by `Error("Failed to initialize OCR
worker")` and the reference stays null. -/
def getOcrWorker (ocrWorker : Option Nat) (createWorker : Except String Nat) :
    Except String Nat × Option Nat × Bool :=
  match ocrWorker with
  | some w => (.ok w, some w, false)
  | none =>
    match createWorker with
    | .ok w => (.ok w, some w, true)
    | .error _ => (.error "Failed to initialize OCR worker", none, true)

/-- Shallow embedding of `terminateOcrWorker()` (`server/ocr.ts`, lines
28-37): the reference is cleared only when `worker.terminate()` succeeds;
a terminate failure is logged and the reference kept. -/
def terminateOcrWorker (ocrWorker : Option Nat) (terminateSucceeds : Bool) :
    Option Nat :=
  match ocrWorker with
  | none => none
  | some w => if terminateSucceeds then none else some w

/-- Global state for the interleaved-execution model of `getOcrWorker`:
the shared `ocrWorker` reference, a supply of fresh worker identities, and a
count of how many times `createWorker` has been invoked. -/
structure WorkerGlobal where
  ocrWorker : Option Nat
  nextId : Nat
  constructions : Nat
deriving DecidableEq, Repr

/-- Program counter of one in-flight `getOcrWorker()` call. JavaScript's
`await createWorker("eng")` yields control between the `if (!ocrWorker)`
check and the assignment `ocrWorker = ...`, so those are separate steps. -/
inductive CallerPc
  /-- About to run the `if (!ocrWorker)` check. -/
  | start
  /-- Passed the null check; awaiting `createWorker` before the assignment. -/
  | creating
  /-- Returned with worker `w`. -/
  | done (w : Nat)
deriving DecidableEq, Repr

/-- One atomic step of an in-flight `getOcrWorker()` call against the shared
state (`server/ocr.ts`, lines 13-23): the null check, or the resumption after
`await createWorker` which performs the assignment and counts a construction
(the success path; construction failures are covered by the sequential
model). -/
def callerStep (g : WorkerGlobal) (pc : CallerPc) : WorkerGlobal × CallerPc :=
  match pc with
  | .start =>
    match g.ocrWorker with
    | some w => (g, .done w)
    | none => (g, .creating)
  | .creating =>
    ({ ocrWorker := some g.nextId, nextId := g.nextId + 1,
       constructions := g.constructions + 1 }, .done g.nextId)
  | .done w => (g, .done w)

/-- Run two concurrent `getOcrWorker()` calls under a schedule: `true` steps
caller A, `false` steps caller B. Returns the final shared state and both
callers' program counters. -/
def runSchedule :
    WorkerGlobal → CallerPc → CallerPc → List Bool →
      WorkerGlobal × CallerPc × CallerPc
  | g, a, b, [] => (g, a, b)
  | g, a, b, true :: rest =>
    let s := callerStep g a
    runSchedule s.1 s.2 b rest
  | g, a, b, false :: rest =>
    let s := callerStep g b
    runSchedule s.1 a s.2 rest

/-- The module-load state of `server/ocr.ts`: `ocrWorker = null`, no worker
ever constructed. -/
def initialWorkerGlobal : WorkerGlobal :=
  { ocrWorker := none, nextId := 0, constructions := 0 }

/-- C7 counterexample: two concurrent first callers of `getOcrWorker`, both
interleaving their null checks before either assignment (schedule A-check,
B-check, A-assign, B-assign), each trigger a separate construction: the
engine is constructed twice with no intervening terminate, and the two
callers even receive different worker instances — refuting the claim that
concurrent first callers do not each trigger a separate construction. -/
theorem getOcrWorker_concurrent_double_construction :
    (runSchedule initialWorkerGlobal .start .start
        [true, false, true, false]).1.constructions = 2 ∧
    (runSchedule initialWorkerGlobal .start .start
        [true, false, true, false]).2.1 = .done 0 ∧
    (runSchedule initialWorkerGlobal .start .start
        [true, false, true, false]).2.2 = .done 1 := by
  decide

/-- C7 (amended): for sequential calls the wrapper constructs at most once
between initialization and explicit termination: a call that finds a cached
worker returns it unchanged without invoking `createWorker`; a first call
that succeeds caches the instance, so every later call returns that same
instance without constructing; if construction fails, an initialization
error is raised and the reference stays null, so a later call retries
construction; and a successful terminate clears the reference. -/
theorem getOcrWorker_sequential_spec (createWorker later : Except String Nat) :
    (∀ w, getOcrWorker (some w) createWorker = (.ok w, some w, false)) ∧
    (∀ w, createWorker = .ok w →
      getOcrWorker none createWorker = (.ok w, some w, true) ∧
      getOcrWorker (some w) later = (.ok w, some w, false)) ∧
    (∀ e, createWorker = .error e →
      getOcrWorker none createWorker =
        (.error "Failed to initialize OCR worker", none, true)) ∧
    (∀ w, terminateOcrWorker (some w) true = none) := by
  refine ⟨fun w => rfl, fun w hok => ?_, fun e herr => ?_, fun w => rfl⟩
  · subst hok; exact ⟨rfl, rfl⟩
  · subst herr; rfl

/-- C7 amended-claim witness: with a `createWorker` that succeeds with
worker 5, the first sequential call constructs and caches it, the second
returns the same instance without constructing, and terminate resets. -/
theorem getOcrWorker_sequential_spec_witness :
    getOcrWorker none (.ok 5) = (.ok 5, some 5, true) ∧
    getOcrWorker (some 5) (.error "later") = (.ok 5, some 5, false) ∧
    getOcrWorker none (.error "boom") =
      (.error "Failed to initialize OCR worker", none, true) ∧
    terminateOcrWorker (some 5) true = none := by
  refine ⟨((getOcrWorker_sequential_spec (.ok 5) (.error "later")).2.1 5 rfl).1,
    ((getOcrWorker_sequential_spec (.ok 5) (.error "later")).2.1 5 rfl).2,
    (getOcrWorker_sequential_spec (.error "boom") (.ok 0)).2.2.1 "boom" rfl,
    (getOcrWorker_sequential_spec (.ok 5) (.ok 5)).2.2.2 5⟩

/-- JavaScript `Math.round`: round half away from zero upward, i.e. the floor
of the argument plus one half. -/
def jsRound (q : ℚ) : ℤ := Int.floor (q + 1 / 2)

/-- The `result.data` fields read by `processImageWithOcr` from
`worker.recognize` (`server/ocr.ts`, lines 59-65): both may be absent. -/
structure RecogData where
  text : Option String
  confidence : Option ℚ

/-- The record returned by `processImageWithOcr` (`server/ocr.ts`,
lines 63-80). -/
structure OcrOutcome where
  text : String
  confidence : ℤ
  language : String
  processingTimeMs : Nat
  success : Bool
  error : Option String
deriving DecidableEq, Repr

/-- Shallow embedding of `processImageWithOcr(imageBuffer, language)`
(`server/ocr.ts`, lines 45-82). The worker reference (`ocrWorker`) is passed
and returned explicitly; `senv` describes the sharp library, `createWorker`
the tesseract constructor, `recognize` the engine's recognition call, and
`tOptimize`/`tInit`/`tRecognize` the wall-clock milliseconds consumed by each
awaited step, so `Date.now() - startTime` is the sum of the durations of the
steps run before returning. `optimizeImage` never throws; a `getOcrWorker`
throw or a `recognize` throw is caught and converted to a `success=false`
outcome carrying the failure message and the elapsed time. -/
def processImageWithOcr (ocrWorker : Option Nat) (senv : SharpEnv)
    (createWorker : Except String Nat)
    (recognize : Nat → Bytes → Except String RecogData)
    (tOptimize tInit tRecognize : Nat)
    (imageBuffer : Bytes) (language : String) : OcrOutcome × Option Nat :=
  let optimizedBuffer := optimizeImage senv imageBuffer
  match getOcrWorker ocrWorker createWorker with
  | (.error e, st2, _) =>
    ({ text := "", confidence := 0, language := language,
       processingTimeMs := tOptimize + tInit, success := false,
       error := some e }, st2)
  | (.ok w, st2, constructed) =>
    let tI := if constructed then tInit else 0
    match recognize w optimizedBuffer with
    | .error e =>
      ({ text := "", confidence := 0, language := language,
         processingTimeMs := tOptimize + tI + tRecognize, success := false,
         error := some e }, st2)
    | .ok d =>
      ({ text := d.text.getD "", confidence := jsRound (d.confidence.getD 0 * 100),
         language := language, processingTimeMs := tOptimize + tI + tRecognize,
         success := true, error := none }, st2)

/-- C4: when a step of `processImageWithOcr` after optimization fails, the
exception is not propagated: the outcome has `success=false`, empty text,
confidence 0, the input language, the failure message in `error`, and
`processingTimeMs` equal to the elapsed time from call start to the failure
(the durations of the steps run so far). Engine-initialization failure
carries the fixed "Failed to initialize OCR worker" message. -/
theorem processImageWithOcr_failure (ocrWorker : Option Nat) (senv : SharpEnv)
    (createWorker : Except String Nat)
    (recognize : Nat → Bytes → Except String RecogData)
    (tOptimize tInit tRecognize : Nat) (imageBuffer : Bytes)
    (language : String) :
    (∀ e, ocrWorker = none → createWorker = .error e →
      (processImageWithOcr ocrWorker senv createWorker recognize
          tOptimize tInit tRecognize imageBuffer language).1 =
        { text := "", confidence := 0, language := language,
          processingTimeMs := tOptimize + tInit, success := false,
          error := some "Failed to initialize OCR worker" }) ∧
    (∀ w st2 constructed m,
      getOcrWorker ocrWorker createWorker = (.ok w, st2, constructed) →
      recognize w (optimizeImage senv imageBuffer) = .error m →
      (processImageWithOcr ocrWorker senv createWorker recognize
          tOptimize tInit tRecognize imageBuffer language).1 =
        { text := "", confidence := 0, language := language,
          processingTimeMs :=
            tOptimize + (if constructed then tInit else 0) + tRecognize,
          success := false, error := some m }) := by
  constructor
  · intro e hst hcw
    subst hst; subst hcw
    simp [processImageWithOcr, getOcrWorker]
  · intro w st2 constructed m hworker hrec
    simp [processImageWithOcr, hworker, hrec]

/-- C4 witness: with no cached worker and a failing constructor the outcome
is the initialization failure with elapsed time 3 + 7 = 10ms; with a worker
that constructs but whose recognition throws "recognize blew up" the outcome
carries that message and elapsed time 3 + 7 + 5 = 15ms. -/
theorem processImageWithOcr_failure_witness :
    (processImageWithOcr none ⟨.error "corrupt", fun _ => .error "x"⟩
        (.error "boom") (fun _ _ => .error "unused") 3 7 5 [(1 : UInt8)]
        "eng").1 =
      { text := "", confidence := 0, language := "eng",
        processingTimeMs := 10, success := false,
        error := some "Failed to initialize OCR worker" } ∧
    (processImageWithOcr none ⟨.error "corrupt", fun _ => .error "x"⟩
        (.ok 0) (fun _ _ => .error "recognize blew up") 3 7 5 [(1 : UInt8)]
        "eng").1 =
      { text := "", confidence := 0, language := "eng",
        processingTimeMs := 15, success := false,
        error := some "recognize blew up" } := by
  constructor
  · exact (processImageWithOcr_failure none _ _ _ 3 7 5 _ "eng").1
      "boom" rfl rfl
  · exact (processImageWithOcr_failure none _ _ _ 3 7 5 _ "eng").2
      0 (some 0) true "recognize blew up" rfl rfl

/-- C5: every successful `processImageWithOcr` outcome arises from a
successful worker acquisition and recognition, and its confidence is the
engine's fractional confidence times 100 rounded half-up (defaulting to 0
when the engine reports none), its text is the engine text defaulting to the
empty string (never null); when the engine confidence lies in [0,1] the
returned confidence lies in [0,100]. The concrete mapping sends 0 to 0 and
0.876 to 88. -/
theorem processImageWithOcr_confidence (ocrWorker : Option Nat)
    (senv : SharpEnv) (createWorker : Except String Nat)
    (recognize : Nat → Bytes → Except String RecogData)
    (tOptimize tInit tRecognize : Nat) (imageBuffer : Bytes)
    (language : String)
    (hsuccess : (processImageWithOcr ocrWorker senv createWorker recognize
        tOptimize tInit tRecognize imageBuffer language).1.success = true) :
    (∃ w st2 constructed d,
      getOcrWorker ocrWorker createWorker = (.ok w, st2, constructed) ∧
      recognize w (optimizeImage senv imageBuffer) = .ok d ∧
      (processImageWithOcr ocrWorker senv createWorker recognize
          tOptimize tInit tRecognize imageBuffer language).1.confidence =
        jsRound (d.confidence.getD 0 * 100) ∧
      (processImageWithOcr ocrWorker senv createWorker recognize
          tOptimize tInit tRecognize imageBuffer language).1.text =
        d.text.getD "" ∧
      (0 ≤ d.confidence.getD 0 → d.confidence.getD 0 ≤ 1 →
        0 ≤ (processImageWithOcr ocrWorker senv createWorker recognize
            tOptimize tInit tRecognize imageBuffer language).1.confidence ∧
        (processImageWithOcr ocrWorker senv createWorker recognize
            tOptimize tInit tRecognize imageBuffer language).1.confidence ≤
          100)) ∧
    jsRound ((0 : ℚ) * 100) = 0 ∧ jsRound ((0.876 : ℚ) * 100) = 88 := by
  have hmap0 : jsRound ((0 : ℚ) * 100) = 0 := by
    rw [jsRound]
    norm_num
  have hmap876 : jsRound ((0.876 : ℚ) * 100) = 88 := by
    rw [jsRound, Int.floor_eq_iff]
    norm_num
  refine ⟨?_, hmap0, hmap876⟩
  rcases hworker : getOcrWorker ocrWorker createWorker with ⟨res, st2, constructed⟩
  rcases res with e | w
  · exfalso
    rw [processImageWithOcr] at hsuccess
    rw [hworker] at hsuccess
    simp at hsuccess
  · rcases hrec : recognize w (optimizeImage senv imageBuffer) with m | d
    · exfalso
      rw [processImageWithOcr] at hsuccess
      rw [hworker] at hsuccess
      simp [hrec] at hsuccess
    · refine ⟨w, st2, constructed, d, rfl, hrec, ?_, ?_, ?_⟩
      · simp [processImageWithOcr, hworker, hrec]
      · simp [processImageWithOcr, hworker, hrec]
      · intro h0 h1
        have hconf : (processImageWithOcr ocrWorker senv createWorker recognize
            tOptimize tInit tRecognize imageBuffer language).1.confidence =
            jsRound (d.confidence.getD 0 * 100) := by
          simp [processImageWithOcr, hworker, hrec]
        rw [hconf, jsRound]
        constructor
        · exact Int.le_floor.mpr (by push_cast; nlinarith)
        · have hlt : (Int.floor (d.confidence.getD 0 * 100 + 1 / 2) : ℤ) < 101 := by
            rw [Int.floor_lt]
            push_cast
            nlinarith
          omega

/-- C5 witness: with a cached worker 3 and an engine reporting text "hello"
and fractional confidence 0.876, the call succeeds, so the mapping theorem
applies; the concrete confidence mapping sends 0 to 0 and 0.876 to 88. -/
theorem processImageWithOcr_confidence_witness :
    (processImageWithOcr (some 3) ⟨.error "m", fun _ => .error "x"⟩
        (.error "unused") (fun _ _ => .ok ⟨some "hello", some 0.876⟩)
        1 2 3 [(9 : UInt8)] "eng").1.success = true ∧
    jsRound ((0 : ℚ) * 100) = 0 ∧ jsRound ((0.876 : ℚ) * 100) = 88 := by
  refine ⟨rfl, ?_, ?_⟩
  · exact (processImageWithOcr_confidence (some 3)
      ⟨.error "m", fun _ => .error "x"⟩ (.error "unused")
      (fun _ _ => .ok ⟨some "hello", some 0.876⟩) 1 2 3 [(9 : UInt8)] "eng"
      rfl).2.1
  · exact (processImageWithOcr_confidence (some 3)
      ⟨.error "m", fun _ => .error "x"⟩ (.error "unused")
      (fun _ _ => .ok ⟨some "hello", some 0.876⟩) 1 2 3 [(9 : UInt8)] "eng"
      rfl).2.2

/-- One element of the `images` array accepted by the `processBatch` mutation
(`server/routers.ts`, lines 121-133), and likewise the input of the
`processImage` mutation. -/
structure BatchImage where
  imageData : String
  fileName : String
  mimeType : String
  language : String
deriving DecidableEq, Repr

/-- The persisted OCR record shape passed to `saveOcrResult`
(`server/routers.ts`, lines 174-182, and `InsertOcrResult` of the drizzle
schema). -/
structure InsertOcrResult where
  userId : Nat
  imageFileName : String
  imageUrl : String
  extractedText : String
  confidence : ℤ
  language : String
  processingTimeMs : Nat
deriving DecidableEq, Repr

/-- Per-item environment for the router orchestration: the bytes produced by
`Buffer.from(imageData, "base64")` (which never throws in Node), the outcome
of `processImageWithOcr` on those bytes (which never throws — see
`processImageWithOcr`), the outcome of the `storagePut` upload (url or
thrown error), and the outcome of `saveOcrResult` (`.ok none` models the
`undefined` returned when the database is unavailable; `.error` a thrown
persistence failure). -/
structure ItemEnv where
  decoded : Bytes
  ocr : OcrOutcome
  upload : Except String String
  persist : Except String (Option InsertOcrResult)

/-- An entry of the `errors` array of the batch outcome
(`server/routers.ts`, lines 147-150). -/
structure BatchErrorEntry where
  fileName : String
  error : String
deriving DecidableEq, Repr

/-- An entry of the `results` array of the batch outcome
(`server/routers.ts`, lines 184-191). -/
structure BatchResultEntry where
  fileName : String
  text : String
  confidence : ℤ
  processingTimeMs : Nat
  imageUrl : String
  success : Bool
deriving DecidableEq, Repr

/-- The value returned by the `processBatch` mutation
(`server/routers.ts`, lines 201-207). -/
structure BatchOutcome where
  success : Bool
  results : List BatchResultEntry
  errors : List BatchErrorEntry
  totalProcessed : Nat
  totalFailed : Nat
deriving DecidableEq, Repr

/-- The body of one iteration of the `processBatch` loop
(`server/routers.ts`, lines 138-199): validation failure, OCR failure, or a
thrown upload/persistence error each yield one `errors` entry for this item
(`Sum.inr`); otherwise one `results` entry (`Sum.inl`). The surrounding
per-item `try/catch` is what turns the thrown upload/persist errors into
`errors` entries instead of aborting the loop. -/
def processBatchItem (image : BatchImage) (env : ItemEnv) :
    BatchResultEntry ⊕ BatchErrorEntry :=
  let imageBuffer := env.decoded
  let validation := validateImageFile imageBuffer image.mimeType defaultMaxSizeBytes
  if validation.valid = false then
    .inr { fileName := image.fileName, error := validation.error.getD "Invalid image" }
  else if env.ocr.success = false then
    .inr { fileName := image.fileName, error := env.ocr.error.getD "OCR processing failed" }
  else
    match env.upload with
    | .error e => .inr { fileName := image.fileName, error := e }
    | .ok imageUrl =>
      match env.persist with
      | .error e => .inr { fileName := image.fileName, error := e }
      | .ok _ =>
        .inl { fileName := image.fileName, text := env.ocr.text,
               confidence := env.ocr.confidence,
               processingTimeMs := env.ocr.processingTimeMs,
               imageUrl := imageUrl, success := true }

/-- The `for` loop of `processBatch` (`server/routers.ts`, lines 135-199),
accumulating the `results` and `errors` arrays in input order. -/
def processBatchLoop :
    List (BatchImage × ItemEnv) → List BatchResultEntry →
      List BatchErrorEntry → List BatchResultEntry × List BatchErrorEntry
  | [], results, errors => (results, errors)
  | (image, env) :: rest, results, errors =>
    match processBatchItem image env with
    | .inl s => processBatchLoop rest (results ++ [s]) errors
    | .inr e => processBatchLoop rest results (errors ++ [e])

/-- Shallow embedding of the `processBatch` mutation
(`server/routers.ts`, lines 121-208): run the loop from empty accumulators
and return the outcome with `totalProcessed = results.length` and
`totalFailed = errors.length`. -/
def processBatch (items : List (BatchImage × ItemEnv)) : BatchOutcome :=
  let p := processBatchLoop items [] []
  { success := true, results := p.1, errors := p.2,
    totalProcessed := p.1.length, totalFailed := p.2.length }

/-- The loop is a fold: its accumulators extend by the per-item entries in
input order. -/
theorem processBatchLoop_eq (items : List (BatchImage × ItemEnv))
    (results : List BatchResultEntry) (errors : List BatchErrorEntry) :
    processBatchLoop items results errors =
      (results ++ items.filterMap (fun p => (processBatchItem p.1 p.2).getLeft?),
       errors ++ items.filterMap (fun p => (processBatchItem p.1 p.2).getRight?)) := by
  induction items generalizing results errors with
  | nil => simp [processBatchLoop]
  | cons hd tl ih =>
    obtain ⟨image, env⟩ := hd
    rcases h : processBatchItem image env with s | e
    · simp [processBatchLoop, h, ih, List.filterMap_cons]
    · simp [processBatchLoop, h, ih, List.filterMap_cons]

/-- Each input item contributes exactly one entry, to `results` or to
`errors`, so the entry counts sum to the input length. -/
theorem processBatchItem_count (items : List (BatchImage × ItemEnv)) :
    (items.filterMap (fun p => (processBatchItem p.1 p.2).getLeft?)).length +
      (items.filterMap (fun p => (processBatchItem p.1 p.2).getRight?)).length =
      items.length := by
  induction items with
  | nil => simp
  | cons hd tl ih =>
    rcases h : processBatchItem hd.1 hd.2 with s | e <;>
      simp [List.filterMap_cons, h] <;> omega

/-- C1: for every input list, `processBatch` returns an outcome whose
`totalProcessed` is the length of `results`, whose `totalFailed` is the
length of `errors`, and whose totals sum to the number of input items; the
empty input yields empty results and errors with totals 0 and 0. -/
theorem processBatch_totals (items : List (BatchImage × ItemEnv)) :
    (processBatch items).results.length = (processBatch items).totalProcessed ∧
    (processBatch items).errors.length = (processBatch items).totalFailed ∧
    (processBatch items).totalProcessed + (processBatch items).totalFailed =
      items.length ∧
    processBatch [] =
      { success := true, results := [], errors := [],
        totalProcessed := 0, totalFailed := 0 } := by
  refine ⟨rfl, rfl, ?_, rfl⟩
  simp only [processBatch, processBatchLoop_eq, List.nil_append]
  exact processBatchItem_count items

/-- C2: `processBatch` processes items independently and in input order: the
`results` and `errors` lists are exactly the per-item entries collected in
order (each determined by that item and its environment alone), the batch
over a concatenation splits into the two batches run separately (so no
earlier failure skips or perturbs a later item), and a failing item produces
exactly one `errors` entry, carrying that item's file name, and no `results`
entry. -/
theorem processBatch_isolation (items more : List (BatchImage × ItemEnv)) :
    (processBatch items).results =
      items.filterMap (fun p => (processBatchItem p.1 p.2).getLeft?) ∧
    (processBatch items).errors =
      items.filterMap (fun p => (processBatchItem p.1 p.2).getRight?) ∧
    (processBatch (items ++ more)).results =
      (processBatch items).results ++ (processBatch more).results ∧
    (processBatch (items ++ more)).errors =
      (processBatch items).errors ++ (processBatch more).errors ∧
    (∀ image env e, processBatchItem image env = Sum.inr e →
      e.fileName = image.fileName ∧
      (processBatchItem image env).getLeft? = none) := by
  refine ⟨?_, ?_, ?_, ?_, ?_⟩
  · simp [processBatch, processBatchLoop_eq]
  · simp [processBatch, processBatchLoop_eq]
  · simp [processBatch, processBatchLoop_eq, List.filterMap_append]
  · simp [processBatch, processBatchLoop_eq, List.filterMap_append]
  · intro image env e h
    refine ⟨?_, by simp [h]⟩
    simp only [processBatchItem] at h
    by_cases hv :
        (validateImageFile env.decoded image.mimeType defaultMaxSizeBytes).valid = false
    · rw [if_pos hv] at h
      injection h with h'
      rw [← h']
    · rw [if_neg hv] at h
      by_cases ho : env.ocr.success = false
      · rw [if_pos ho] at h
        injection h with h'
        rw [← h']
      · rw [if_neg ho] at h
        rcases hu : env.upload with eu | url
        · rw [hu] at h
          injection h with h'
          rw [← h']
        · rw [hu] at h
          rcases hp : env.persist with ep | v
          · rw [hp] at h
            injection h with h'
            rw [← h']
          · rw [hp] at h
            simp at h

/-- A well-formed batch item: small JPEG, recognition succeeded. -/
def exampleGoodImage : BatchImage :=
  { imageData := "QQ==", fileName := "a.jpg", mimeType := "image/jpeg",
    language := "eng" }

/-- Environment for `exampleGoodImage`: every step succeeds. -/
def exampleGoodEnv : ItemEnv :=
  { decoded := [(0 : UInt8)]
    ocr := { text := "text", confidence := 88, language := "eng",
             processingTimeMs := 5, success := true, error := none }
    upload := .ok "https://storage/a"
    persist := .ok (some
      { userId := 1, imageFileName := "a.jpg", imageUrl := "https://storage/a",
        extractedText := "text", confidence := 88, language := "eng",
        processingTimeMs := 5 }) }

/-- A batch item with an unsupported MIME type. -/
def exampleBadImage : BatchImage :=
  { imageData := "QQ==", fileName := "bad.pdf", mimeType := "application/pdf",
    language := "eng" }

/-- Environment for `exampleBadImage`: every infrastructure step would fail,
but validation rejects the item first. -/
def exampleBadEnv : ItemEnv :=
  { decoded := [(0 : UInt8)]
    ocr := { text := "", confidence := 0, language := "eng",
             processingTimeMs := 1, success := false, error := some "nope" }
    upload := .error "no-upload"
    persist := .error "no-db" }

/-- C2 witness: a PDF item fails validation and yields exactly one `errors`
entry carrying its own file name and no `results` entry, and a batch of a
good item followed by the bad one splits item-wise, so the bad item does not
disturb the good one. -/
theorem processBatch_isolation_witness :
    processBatchItem exampleBadImage exampleBadEnv =
      Sum.inr { fileName := "bad.pdf", error := formatErrorMessage } ∧
    (BatchErrorEntry.mk "bad.pdf" formatErrorMessage).fileName =
      exampleBadImage.fileName ∧
    (processBatchItem exampleBadImage exampleBadEnv).getLeft? = none ∧
    (processBatch ([(exampleGoodImage, exampleGoodEnv)] ++
        [(exampleBadImage, exampleBadEnv)])).errors =
      (processBatch [(exampleGoodImage, exampleGoodEnv)]).errors ++
        (processBatch [(exampleBadImage, exampleBadEnv)]).errors := by
  have h : processBatchItem exampleBadImage exampleBadEnv =
      Sum.inr { fileName := "bad.pdf", error := formatErrorMessage } := by
    decide
  have hiso := processBatch_isolation
    [(exampleGoodImage, exampleGoodEnv)] [(exampleBadImage, exampleBadEnv)]
  exact ⟨h, (hiso.2.2.2.2 exampleBadImage exampleBadEnv _ h).1,
    (hiso.2.2.2.2 exampleBadImage exampleBadEnv _ h).2, hiso.2.2.2.1⟩

/-- The value returned by the `processImage` mutation on success
(`server/routers.ts`, lines 75-81). -/
structure ProcessImageSuccess where
  success : Bool
  text : String
  confidence : ℤ
  processingTimeMs : Nat
  imageUrl : String
deriving DecidableEq, Repr

/-- Shallow embedding of the `processImage` mutation
(`server/routers.ts`, lines 29-88): validation failure, OCR failure, or a
thrown upload/persistence error is rethrown to the caller as a request-level
error (`Except.error` with the human-readable message, via the surrounding
`try/catch`); otherwise the success record is returned. The `saveOcrResult`
return value is awaited but ignored. -/
def processImage (input : BatchImage) (env : ItemEnv) :
    Except String ProcessImageSuccess :=
  let imageBuffer := env.decoded
  let validation := validateImageFile imageBuffer input.mimeType defaultMaxSizeBytes
  if validation.valid = false then
    .error (validation.error.getD "Invalid image")
  else if env.ocr.success = false then
    .error (env.ocr.error.getD "OCR processing failed")
  else
    match env.upload with
    | .error e => .error e
    | .ok imageUrl =>
      match env.persist with
      | .error e => .error e
      | .ok _ =>
        .ok { success := true, text := env.ocr.text,
              confidence := env.ocr.confidence,
              processingTimeMs := env.ocr.processingTimeMs,
              imageUrl := imageUrl }

/-- Shallow embedding of `saveOcrResult(result)` (db module, lines 118-132):
when the database is unavailable it logs a warning and returns `undefined`
(modelled `.ok none`) instead of throwing; when available, the insert either
succeeds (returning the record) or its exception propagates. -/
def saveOcrResult (dbAvailable : Bool) (insertOutcome : Except String Unit)
    (result : InsertOcrResult) : Except String (Option InsertOcrResult) :=
  if dbAvailable = false then .ok none
  else
    match insertOutcome with
    | .ok _ => .ok (some result)
    | .error e => .error e

/-- C9: with the backing store unavailable, `saveOcrResult` returns
`undefined` (`.ok none`) instead of throwing, and the callers treat that as
success: when an item's persistence step yields `.ok none` (and the earlier
steps succeeded), `processImage` still returns `success=true` with the
extracted text, and `processBatch` still appends the item to `results` and
counts it in `totalProcessed` — persistence unavailability is never reported
to the caller as an error. -/
theorem saveOcrResult_degraded (insertOutcome : Except String Unit)
    (r : InsertOcrResult) (image : BatchImage) (env : ItemEnv) :
    saveOcrResult false insertOutcome r = .ok none ∧
    (env.persist = .ok none →
      (validateImageFile env.decoded image.mimeType defaultMaxSizeBytes).valid = true →
      env.ocr.success = true →
      ∀ url, env.upload = .ok url →
      processImage image env =
        .ok { success := true, text := env.ocr.text,
              confidence := env.ocr.confidence,
              processingTimeMs := env.ocr.processingTimeMs,
              imageUrl := url } ∧
      processBatchItem image env =
        .inl { fileName := image.fileName, text := env.ocr.text,
               confidence := env.ocr.confidence,
               processingTimeMs := env.ocr.processingTimeMs,
               imageUrl := url, success := true } ∧
      (processBatch [(image, env)]).totalProcessed = 1 ∧
      (processBatch [(image, env)]).results.length = 1) := by
  refine ⟨rfl, fun hp hv ho url hu => ?_⟩
  have hitem : processBatchItem image env =
      .inl { fileName := image.fileName, text := env.ocr.text,
             confidence := env.ocr.confidence,
             processingTimeMs := env.ocr.processingTimeMs,
             imageUrl := url, success := true } := by
    simp [processBatchItem, hv, ho, hu, hp]
  refine ⟨?_, hitem, ?_, ?_⟩
  · simp [processImage, hv, ho, hu, hp]
  · simp [processBatch, processBatchLoop, hitem]
  · simp [processBatch, processBatchLoop, hitem]

/-- An environment whose persistence step returned `undefined` because the
database is unavailable; everything else succeeded. -/
def exampleDegradedEnv : ItemEnv :=
  { decoded := [(0 : UInt8)]
    ocr := { text := "text", confidence := 88, language := "eng",
             processingTimeMs := 5, success := true, error := none }
    upload := .ok "https://storage/a"
    persist := .ok none }

/-- C9 witness: a concrete degraded-mode save returns `undefined`, yet the
single-image call reports success with the text and the one-item batch counts
the item as processed. -/
theorem saveOcrResult_degraded_witness :
    saveOcrResult false (.ok ())
      { userId := 1, imageFileName := "a.jpg", imageUrl := "u",
        extractedText := "t", confidence := 88, language := "eng",
        processingTimeMs := 5 } = .ok none ∧
    processImage exampleGoodImage exampleDegradedEnv =
      .ok { success := true, text := "text", confidence := 88,
            processingTimeMs := 5, imageUrl := "https://storage/a" } ∧
    (processBatch [(exampleGoodImage, exampleDegradedEnv)]).totalProcessed = 1 := by
  have h := saveOcrResult_degraded (.ok ())
    { userId := 1, imageFileName := "a.jpg", imageUrl := "u",
      extractedText := "t", confidence := 88, language := "eng",
      processingTimeMs := 5 } exampleGoodImage exampleDegradedEnv
  have h2 := h.2 rfl (by decide) rfl "https://storage/a" rfl
  exact ⟨h.1, h2.1, h2.2.2.1⟩

/-- A stored row of the `ocrResults` table, restricted to the columns the
delete path reads: the primary key `id`, the owning `userId`, and a payload
column standing for the rest of the record. -/
structure OcrResultRow where
  id : Nat
  userId : Nat
  extractedText : String
deriving DecidableEq, Repr

/-- Shallow embedding of `deleteOcrResult(id, userId)` (db module, lines
137-154). When the database is unavailable it returns `false` without
touching the store; otherwise the delete query
`where and(eq(ocrResults.id, id), eq(ocrResults.userId, userId))` removes
exactly the rows matching both the id and the owning user, and the function
returns `true` whether or not any row matched; a thrown query error
propagates and leaves the store unchanged. The pair carries the returned (or
thrown) value and the resulting store. -/
def deleteOcrResult (dbAvailable : Bool) (queryFailure : Option String)
    (store : List OcrResultRow) (id userId : Nat) :
    Except String Bool × List OcrResultRow :=
  if dbAvailable = false then (.ok false, store)
  else
    match queryFailure with
    | some e => (.error e, store)
    | none =>
      (.ok true, store.filter (fun r => !(r.id == id && r.userId == userId)))

/-- Shallow embedding of the `deleteResult` mutation (`server/routers.ts`,
lines 106-116): it awaits `deleteOcrResult` (ignoring its boolean) and
returns `{ success: true }`; a thrown error is replaced by
`Error("Failed to delete OCR result")`. -/
def deleteResult (dbAvailable : Bool) (queryFailure : Option String)
    (store : List OcrResultRow) (id userId : Nat) :
    Except String Bool × List OcrResultRow :=
  match deleteOcrResult dbAvailable queryFailure store id userId with
  | (.ok _, st) => (.ok true, st)
  | (.error _, st) => (.error "Failed to delete OCR result", st)

/-- C8: `deleteOcrResult` deletes only rows owned by the given user: every
stored row whose `userId` differs from the argument survives the call (in
every branch — database unavailable, query failure, or successful delete),
and likewise through the `deleteResult` endpoint. -/
theorem deleteOcrResult_ownerScoped (dbAvailable : Bool)
    (queryFailure : Option String) (store : List OcrResultRow)
    (id userId : Nat) (r : OcrResultRow) (hmem : r ∈ store)
    (hown : r.userId ≠ userId) :
    r ∈ (deleteOcrResult dbAvailable queryFailure store id userId).2 ∧
    r ∈ (deleteResult dbAvailable queryFailure store id userId).2 := by
  have hdel : r ∈ (deleteOcrResult dbAvailable queryFailure store id userId).2 := by
    unfold deleteOcrResult
    by_cases hdb : dbAvailable = false
    · rw [if_pos hdb]; exact hmem
    · rw [if_neg hdb]
      cases queryFailure with
      | some e => exact hmem
      | none => exact List.mem_filter.mpr ⟨hmem, by simp [hown]⟩
  refine ⟨hdel, ?_⟩
  rcases hq : deleteOcrResult dbAvailable queryFailure store id userId with ⟨res, st⟩
  rw [hq] at hdel
  unfold deleteResult
  rw [hq]
  rcases res with e | b <;> simpa using hdel

/-- C8 witness: a row owned by user 7 survives a delete call by user 8 even
though the id matches, both in the store returned by `deleteOcrResult` and
through the `deleteResult` endpoint. -/
theorem deleteOcrResult_ownerScoped_witness :
    (OcrResultRow.mk 1 7 "keep") ∈
      (deleteOcrResult true none [OcrResultRow.mk 1 7 "keep"] 1 8).2 ∧
    (OcrResultRow.mk 1 7 "keep") ∈
      (deleteResult true none [OcrResultRow.mk 1 7 "keep"] 1 8).2 :=
  deleteOcrResult_ownerScoped true none [OcrResultRow.mk 1 7 "keep"] 1 8
    (OcrResultRow.mk 1 7 "keep") (by simp) (by decide)

/-- C10: whenever the database is available and the delete query does not
throw, `deleteOcrResult` returns `true` regardless of whether any row was
deleted, and the `deleteResult` endpoint reports `{ success: true }`; in
particular when no stored row matches the id and owner (so nothing is
deleted, the store is unchanged) both still report success. -/
theorem deleteResult_reports_success (store : List OcrResultRow)
    (id userId : Nat) :
    (deleteOcrResult true none store id userId).1 = .ok true ∧
    (deleteResult true none store id userId).1 = .ok true ∧
    ((∀ r ∈ store, ¬(r.id = id ∧ r.userId = userId)) →
      (deleteOcrResult true none store id userId).2 = store) := by
  refine ⟨by simp [deleteOcrResult], by simp [deleteResult, deleteOcrResult], ?_⟩
  intro h
  simp only [deleteOcrResult]
  rw [if_neg (by simp)]
  simp only []
  refine List.filter_eq_self.mpr ?_
  intro r hr
  have := h r hr
  simp only [Bool.not_eq_true', Bool.and_eq_false_iff]
  by_cases hid : r.id = id
  · right
    simp only [beq_eq_false_iff_ne, ne_eq]
    exact fun hu => this ⟨hid, hu⟩
  · left
    simp [hid]

/-- C10 witness: deleting id 2 as user 9 from a store holding only a row with
id 1 owned by user 7 deletes nothing, yet `deleteOcrResult` returns `true`
and `deleteResult` reports success. -/
theorem deleteResult_reports_success_witness :
    (deleteOcrResult true none [OcrResultRow.mk 1 7 "row"] 2 9).1 = .ok true ∧
    (deleteResult true none [OcrResultRow.mk 1 7 "row"] 2 9).1 = .ok true ∧
    (deleteOcrResult true none [OcrResultRow.mk 1 7 "row"] 2 9).2 =
      [OcrResultRow.mk 1 7 "row"] := by
  have h := deleteResult_reports_success [OcrResultRow.mk 1 7 "row"] 2 9
  exact ⟨h.1, h.2.1, h.2.2 (by decide)⟩
